import Mathlib

/-
  Verification of the conversation-state routing logic of the
  Telegram ↔ Salesforce relay bot (src/app.py and src/File.py).

  The Python sources are shallowly embedded: message texts are `List Char`,
  Salesforce record identifiers are `String`, every network interaction with
  the CRM or the chat platform is an oracle value recorded in an explicit
  oracle structure, and the in-memory per-chat dictionaries are modelled as
  explicit state values threaded through the routing functions.
-/

/-! ## String primitives mirroring the Python built-ins used by the bot -/

/-- Shorthand turning a string literal into the character list the model
works on. -/
def str (s : String) : List Char := s.data

/-- The characters that the Python strip method removes. -/
def isWsChar (c : Char) : Bool :=
  c = ' ' || c = '\t' || c = '\n' || c = '\r' || c = '\x0b' || c = '\x0c'

/-- Python `str.strip()`: drop whitespace from both ends. -/
def pyStrip (s : List Char) : List Char :=
  ((s.dropWhile isWsChar).reverse.dropWhile isWsChar).reverse

/-- Python `str.lower()` (the bot only ever lowercases ASCII). -/
def pyLower (s : List Char) : List Char :=
  s.map Char.toLower

/-- Does `s` begin with the prefix list `p`? (Python `str.startswith`.) -/
def beginsWith : List Char → List Char → Bool
  | [], _ => true
  | _ :: _, [] => false
  | a :: as, b :: bs => a == b && beginsWith as bs

/-- Is `n` a contiguous substring of `h`? (Python `in` on strings.) -/
def hasSub (n : List Char) : List Char → Bool
  | [] => beginsWith n []
  | c :: rest => beginsWith n (c :: rest) || hasSub n rest

/-- Python `message_text.split(' ', 1)`: the part before the first space,
and—when a space occurs—the untouched remainder after it. -/
def splitOnceSpace : List Char → List Char × Option (List Char)
  | [] => ([], none)
  | c :: rest =>
    if c = ' ' then ([], some rest)
    else
      let p := splitOnceSpace rest
      (c :: p.1, p.2)

/-- Number of whitespace-separated tokens of a string (Python `len(s.split())`):
count the positions where a non-whitespace character follows a whitespace
character or the start of the string. -/
def tokenCount (l : List Char) : Nat :=
  (l.zip (' ' :: l)).countP (fun cp => !isWsChar cp.1 && isWsChar cp.2)

/-! ## Phone-number normalization (app.py `sanitize_phone_number`,
File.py `clean_phone_number`) -/

/-- All decimal digits of the input, in order (the Python re.sub step that removes every non-digit). -/
def digitsOf (s : List Char) : List Char :=
  s.filter Char.isDigit

/-- The final validation regex `^0[79]\d{8}$` of the hardened normalizer. -/
def matchesMobile (l : List Char) : Bool :=
  match l with
  | '0' :: c :: rest => (c == '7' || c == '9') && rest.length == 8 && rest.all Char.isDigit
  | _ => false

/-- app.py `sanitize_phone_number`: strip non-digits, gate on having 9–12
digits, drop a leading country code, force a leading `0`, and accept only
Ethiopian mobile numbers `0[79]\d{8}`. -/
def sanitize_phone_number (phone : List Char) : List Char :=
  if phone = [] then []
  else
    let cleaned := digitsOf phone
    if cleaned.length < 9 || cleaned.length > 12 then []
    else
      let c2 := if beginsWith (str "251") cleaned then cleaned.drop 3
                else if beginsWith (str "+251") cleaned then cleaned.drop 4
                else cleaned
      let c3 := if beginsWith (str "0") c2 then c2 else '0' :: c2
      if matchesMobile c3 then c3 else []

/-- File.py `clean_phone_number`: the earlier cosmetic-cleanup variant with no
validation. -/
def clean_phone_number (phone : List Char) : List Char :=
  if phone = [] then []
  else
    let cleaned := digitsOf phone
    let c2 := if beginsWith (str "251") cleaned then cleaned.drop 3 else cleaned
    if beginsWith (str "0") c2 then c2 else '0' :: c2

/-- app.py `is_phone_number`: truthiness of the hardened normalizer output. -/
def is_phone_number_app (t : List Char) : Bool :=
  !(sanitize_phone_number t).isEmpty

/-- `[97]\d{8}` — the core of the registration phone pattern. -/
def phoneCore (l : List Char) : Bool :=
  match l with
  | c :: rest => (c == '9' || c == '7') && rest.length == 8 && rest.all Char.isDigit
  | [] => false

/-- The File.py registration regex `^(\+?251|0)?[97]\d{8}$` on an
already-stripped string. -/
def matchesRegistrationPhone (s : List Char) : Bool :=
  phoneCore s
    || (beginsWith (str "0") s && phoneCore (s.drop 1))
    || (beginsWith (str "251") s && phoneCore (s.drop 3))
    || (beginsWith (str "+251") s && phoneCore (s.drop 4))

/-- File.py `is_phone_number`: regex match against the stripped text. -/
def is_phone_number_fb (t : List Char) : Bool :=
  matchesRegistrationPhone (pyStrip t)

/-- Modelled from the spec: the phone-normalization contract exactly as the
specification words it — strip all non-digit characters, drop a leading
`251` country prefix, prepend `0` if the remainder does not start with `0`,
and return the result only when it matches `0[79]\d{8}` (empty otherwise). -/
def claimPhoneNormalize (phone : List Char) : List Char :=
  let stripped := digitsOf phone
  let dropped := if beginsWith (str "251") stripped then stripped.drop 3 else stripped
  let normalized := if beginsWith (str "0") dropped then dropped else '0' :: dropped
  if matchesMobile normalized then normalized else []

/-- Modelled from the spec, amended: as `claimPhoneNormalize` but with the
length gate the code applies — inputs whose digit string has fewer than 9 or
more than 12 digits are invalid. -/
def claimPhoneNormalizeAmended (phone : List Char) : List Char :=
  let stripped := digitsOf phone
  if stripped.length < 9 || stripped.length > 12 then []
  else
    let dropped := if beginsWith (str "251") stripped then stripped.drop 3 else stripped
    let normalized := if beginsWith (str "0") dropped then dropped else '0' :: dropped
    if matchesMobile normalized then normalized else []

/-! ## File.py — data model and collaborator oracle -/

/-- A Salesforce `Contact` record as File.py reads it. -/
structure FbContact where
  id : String
  firstName : Option String
  deriving DecidableEq

/-- A `Conversation_Thread__c` record (`Status__c`, `Assigned__c`). -/
structure FbThread where
  status : String
  assigned : Bool
  deriving DecidableEq

/-- One request view of the CRM and chat collaborators for File.py: each
field is the outcome the corresponding network call would produce. -/
structure FbOracle where
  contactByChatId : Option FbContact
  thread : Option FbThread
  contactByPhone : Option FbContact
  contactByEmail : Option FbContact
  updateChatIdOk : Bool
  createContactId : Option String
  forwardOk : Bool
  deriving DecidableEq

/-- The registration step stored in `user_states`; the gender collected at the
gender step travels with the name step, mirroring the dict keys. -/
inductive FbStep where
  | gender
  | name (gender : List Char)
  deriving DecidableEq

/-- The entry of one chat in the File.py `user_states` dict (`type` key). -/
inductive FbUserState where
  | registration (phone : List Char) (step : FbStep)
  | supportDescription
  deriving DecidableEq

/-- Character class of the email regex local part. -/
def isLocalChar (c : Char) : Bool :=
  c.isAlphanum || c = '.' || c = '_' || c = '%' || c = '+' || c = '-'

/-- Character class of the email regex domain part. -/
def isDomChar (c : Char) : Bool :=
  c.isAlphanum || c = '.' || c = '-'

/-- `[a-zA-Z0-9.-]+\.[a-zA-Z]{2,}$`: some split of the tail into a nonempty
domain chunk, a dot, and at least two letters. -/
def matchesDomainTail (l : List Char) : Bool :=
  (List.range l.length).any (fun i =>
    !(l.take i).isEmpty && (l.take i).all isDomChar &&
      (match l.drop i with
       | '.' :: t => decide (2 ≤ t.length) && t.all Char.isAlpha
       | _ => false))

/-- File.py `is_email`: the regex `^[a-zA-Z0-9._%+-]+@[a-zA-Z0-9.-]+\.[a-zA-Z]{2,}$`
against the stripped text. -/
def is_email (raw : List Char) : Bool :=
  let s := pyStrip raw
  let loc := s.takeWhile isLocalChar
  !loc.isEmpty &&
    (match s.drop loc.length with
     | '@' :: dom => matchesDomainTail dom
     | _ => false)

/-- Observable outcome of one pass through `handle_registration_flow`. -/
inductive RegFlowResult where
  | genderAccepted
  | genderReprompt
  | contactCreated (first last phone gender : List Char) (contactId : String)
  | createFailed (first last : List Char)
  | nameReprompt
  deriving DecidableEq

/-- File.py `handle_registration_flow` for the chat whose `user_states` entry
is `registration phone step`; returns the observable outcome and the new
new `user_states` entry. -/
def handle_registration_flow (o : FbOracle) (text phone : List Char) (step : FbStep) :
    RegFlowResult × Option FbUserState :=
  match step with
  | .gender =>
    if pyLower text = str "male" ∨ pyLower text = str "female" then
      (.genderAccepted, some (.registration phone (.name (pyLower text))))
    else
      (.genderReprompt, some (.registration phone .gender))
  | .name g =>
    match splitOnceSpace text with
    | (first, some last) =>
      match o.createContactId with
      | some cid => (.contactCreated first last phone g cid, none)
      | none => (.createFailed first last, some (.registration phone (.name g)))
    | (_, none) => (.nameReprompt, some (.registration phone (.name g)))

/-- Observable routing decision of the File.py webhook / registered-user handler. -/
inductive FbRoute where
  | registrationFlow (r : RegFlowResult)
  | supportRequestReceived (ok : Bool)
  | sentToAgent (ok : Bool)
  | sentUnassigned (ok : Bool)
  | stillWaitingNotice
  | trackCaseNotice
  | supportStart (ok : Bool)
  | mainMenu (recognized : Bool)
  | welcomeStart
  | phoneLinked
  | phoneLinkFailed
  | phoneRegistrationStarted (clean : List Char)
  | emailLinked
  | emailLinkFailed
  | emailNotFound
  | askIdentifier
  | malformedState
  deriving DecidableEq

/-- The closed/new-thread menu selection at the end of
`handle_registered_user` (`'1'`/`track`, `'2'`/`support`/`contact`, else menu). -/
def fbMenuSelect (o : FbOracle) (msgLower : List Char) : FbRoute × Option FbUserState :=
  if msgLower = str "1" ∨ hasSub (str "track") msgLower then (.trackCaseNotice, none)
  else if msgLower = str "2" ∨ hasSub (str "support") msgLower ∨ hasSub (str "contact") msgLower then
    (.supportStart o.forwardOk, some .supportDescription)
  else (.mainMenu o.contactByChatId.isSome, none)

/-- File.py `handle_registered_user`: leftover registration state re-enters the
registration flow; a pending support description is forwarded; otherwise the
thread status decides between forwarding and the menu. -/
def handle_registered_user (o : FbOracle) (text : List Char) (st : Option FbUserState) :
    FbRoute × Option FbUserState :=
  let msgLower := pyLower (pyStrip text)
  match st with
  | some (.registration phone step) =>
    let p := handle_registration_flow o text phone step
    (.registrationFlow p.1, p.2)
  | some .supportDescription =>
    (.supportRequestReceived o.forwardOk, none)
  | none =>
    match o.thread with
    | some th =>
      if th.status = "Active" ∧ th.assigned then (.sentToAgent o.forwardOk, none)
      else if th.status = "Active" ∧ ¬th.assigned then (.sentUnassigned o.forwardOk, none)
      else if th.status = "Waiting for Agent" then (.stillWaitingNotice, none)
      else fbMenuSelect o msgLower
    | none => fbMenuSelect o msgLower

/-- The message handling of File.py `telegram_webhook`: `/start` short-circuits,
then a registered chat goes to `handle_registered_user`, and an unregistered
chat either continues its registration state or starts identification. -/
def fb_webhook (o : FbOracle) (text : List Char) (st : Option FbUserState) :
    FbRoute × Option FbUserState :=
  if text = str "/start" then (.welcomeStart, st)
  else
    match o.contactByChatId with
    | some _ => handle_registered_user o text st
    | none =>
      match st with
      | none =>
        if is_phone_number_fb text then
          let clean := clean_phone_number text
          match o.contactByPhone with
          | some _ => if o.updateChatIdOk then (.phoneLinked, st) else (.phoneLinkFailed, st)
          | none => (.phoneRegistrationStarted clean, some (.registration clean .gender))
        else if is_email text then
          match o.contactByEmail with
          | some _ => if o.updateChatIdOk then (.emailLinked, st) else (.emailLinkFailed, st)
          | none => (.emailNotFound, st)
        else (.askIdentifier, st)
      | some (.registration phone step) =>
        let p := handle_registration_flow o text phone step
        (.registrationFlow p.1, p.2)
      | some .supportDescription => (.malformedState, st)

/-! ## app.py — data model and collaborator oracle -/

/-- Outcome of one HTTP round-trip to Salesforce: a 200 response carrying a
parsed value, a non-200 status, or a raised exception (timeout, connection). -/
inductive SfResp (α : Type) where
  | ok (val : α)
  | httpErr
  | exn
  deriving DecidableEq

/-- A `Channel_User__c` record as `check_existing_channel_user` returns it. -/
structure ChannelUser where
  id : String
  contactFirstName : Option String
  deriving DecidableEq

/-- A `Support_Conversation__c` record. -/
structure SupportConversation where
  id : String
  deriving DecidableEq

/-- A `Chat_Session__c` record (`Id`, `Status__c`). -/
structure ChatSession where
  id : String
  status : String
  deriving DecidableEq

/-- One request view of the collaborators for app.py. `sessions k` is the
result of the `k`-th `Chat_Session__c` query issued during the request, so a
session created mid-request can appear in a later query. -/
structure AppOracle where
  authOk : Bool
  channelUser : SfResp (Option ChannelUser)
  activeConversation : SfResp (Option SupportConversation)
  sessions : Nat → SfResp (List ChatSession)
  contactByPhone : Option FbContact
  createChannelUser : Option (String × Option String)
  createSessionOk : Bool
  forwardOk : Bool
  queuePos : Option Nat

/-- app.py `check_existing_channel_user`: `None` when the token cannot be
acquired, on a non-200 response, on an empty result, and on any exception. -/
def check_existing_channel_user (o : AppOracle) : Option ChannelUser :=
  if o.authOk then
    match o.channelUser with
    | .ok r => r
    | .httpErr => none
    | .exn => none
  else none

/-- app.py `get_active_support_conversation`, with the same collapsing of
failures to `None`. -/
def get_active_support_conversation (o : AppOracle) : Option SupportConversation :=
  if o.authOk then
    match o.activeConversation with
    | .ok r => r
    | .httpErr => none
    | .exn => none
  else none

/-- app.py `get_active_sessions` for the `k`-th session query of the request:
the record list on a 200 response, `[]` on auth failure, non-200 or exception. -/
def get_active_sessions (o : AppOracle) (k : Nat) : List ChatSession :=
  if o.authOk then
    match o.sessions k with
    | .ok l => l
    | .httpErr => []
    | .exn => []
  else []

/-- The entry of one chat in the process-wide `user_session_state` dict; `none` in
a field means the key is absent from the entry. -/
structure CacheEntry where
  in_session : Option Bool := none
  conversation_id : Option String := none
  session_id : Option String := none
  session_status : Option String := none
  awaiting_confirmation : Option String := none
  deriving DecidableEq

/-- The whole `user_session_state` dict; a chat with no entry maps to the
empty entry, matching the `.get(chat_id_str, {})` reads. -/
def SessionCache := String → CacheEntry

/-- Write the entry of one chat. -/
def setEntry (m : SessionCache) (k : String) (e : CacheEntry) : SessionCache :=
  fun x => if x = k then e else m x

/-- The four-field entry written whenever the bot records a live session. -/
def liveEntry (conv sid st : String) : CacheEntry :=
  { in_session := some true, conversation_id := some conv,
    session_id := some sid, session_status := some st }

/-- The entry written while a new-session confirmation is pending. -/
def awaitingEntry (conv : String) : CacheEntry :=
  { awaiting_confirmation := some "new_session", conversation_id := some conv }

/-- app.py `sanitize_input`: drop NUL bytes when sanitization is enabled, and
truncate to the configured maximum length. -/
def sanitize_input (enabled : Bool) (maxLen : Nat) (text : List Char) : List Char :=
  if text = [] then text
  else if !enabled then text.take maxLen
  else (text.filter (fun c => c != '\x00')).take maxLen

/-- app.py `is_menu_command`: exact membership of the stripped, lowercased
text in the fixed menu vocabulary. -/
def is_menu_command (text : List Char) : Bool :=
  if text = [] then false
  else [str "/start", str "hi", str "hello", str "hey", str "menu", str "help"].contains
    (pyLower (pyStrip text))

/-- app.py `str.isdigit()` on the chat id. -/
def isDigitsStr (s : String) : Bool :=
  !s.data.isEmpty && s.data.all Char.isDigit

/-- The support-likeness heuristic of `process_incoming_message`:
length over 20, a question mark, or one of the keywords. -/
def isSupportLike (safe msgLower : List Char) : Bool :=
  decide (20 < safe.length) || safe.contains '?'
    || hasSub (str "help") msgLower || hasSub (str "issue") msgLower
    || hasSub (str "problem") msgLower

/-- Observable outcome of `handle_contact_support`. -/
inductive CSResult where
  | noConversationErr
  | existingSession (sid status : String) (queuePos : Option Nat)
  | createFailedMsg
  | createdNotFound
  | createdQueued (sid : String) (queuePos : Option Nat)
  deriving DecidableEq

/-- The session id `handle_contact_support` hands back on success; `none`
exactly when it returns `success = False`. -/
def CSResult.sessionId : CSResult → Option String
  | .existingSession sid _ _ => some sid
  | .createdQueued sid _ => some sid
  | _ => none

/-- app.py `handle_contact_support`: reuse an existing Active/Waiting session
if one is live, otherwise fire the session-creation webhook, wait, and re-poll
once; returns the outcome, the updated cache and the next session-query index. -/
def handle_contact_support (o : AppOracle) (k : Nat) (chat convId : String)
    (cache : SessionCache) : CSResult × SessionCache × Nat :=
  if convId = "" then (.noConversationErr, cache, k)
  else
    match get_active_sessions o k with
    | s :: _ =>
      (.existingSession s.id s.status (if s.status = "Active" then none else o.queuePos),
       setEntry cache chat (liveEntry convId s.id s.status), k + 1)
    | [] =>
      if !o.createSessionOk then (.createFailedMsg, cache, k + 1)
      else
        match get_active_sessions o (k + 1) with
        | [] => (.createdNotFound, cache, k + 2)
        | s :: _ =>
          (.createdQueued s.id o.queuePos,
           setEntry cache chat (liveEntry convId s.id "Waiting"), k + 2)

/-- Observable outcome of `handle_continue_session`. -/
inductive ContinueResult where
  | noActive
  | returning (sid status : String) (queuePos : Option Nat)
  deriving DecidableEq

/-- app.py `handle_continue_session`. -/
def handle_continue_session (o : AppOracle) (k : Nat) (chat convId : String)
    (cache : SessionCache) : ContinueResult × SessionCache × Nat :=
  match get_active_sessions o k with
  | [] => (.noActive, cache, k + 1)
  | s :: _ =>
    (.returning s.id s.status (if s.status = "Active" then none else o.queuePos),
     setEntry cache chat (liveEntry convId s.id s.status), k + 1)

/-- Observable outcome of `handle_new_user_registration`. -/
inductive AppRegRoute where
  | welcomeStart
  | invalidPhoneMsg
  | createAttempt (phone : List Char) (contactId : Option String)
      (result : Option (String × Option String))
  | promptPhone
  deriving DecidableEq

/-- app.py `handle_new_user_registration`: `/start` shows the register button,
a phone-shaped message looks up the contact and creates the channel user plus
conversation, anything else re-prompts for the phone. -/
def handle_new_user_registration (o : AppOracle) (safe : List Char) : AppRegRoute :=
  let msgLower := pyLower (pyStrip safe)
  if msgLower = str "/start" then .welcomeStart
  else if is_phone_number_app safe then
    let clean := sanitize_phone_number safe
    if clean = [] then .invalidPhoneMsg
    else .createAttempt clean ((if o.authOk then o.contactByPhone else none).map (·.id))
      (if o.authOk then o.createChannelUser else none)
  else .promptPhone

/-- Observable routing decision of app.py `process_incoming_message`. -/
inductive AppRoute where
  | invalidChatId
  | registration (r : AppRegRoute)
  | noConversationMenu
  | menu (hasActive : Bool)
  | trackCase
  | newSessionConfirm
  | newSessionStart (r : CSResult)
  | confirmYes (r : CSResult)
  | confirmNo (r : ContinueResult)
  | staleResetMenu
  | forwardMsg (convId sid status : String) (queuePos : Option Nat) (ok : Bool)
  | autoSession (r : CSResult) (forwarded : Option Bool) (queuePos : Option Nat)
  | menuNoSession
  deriving DecidableEq

/-- The new / new support / new session text command: confirmation
keyboard when a session is live, otherwise start one and record it. -/
def prTextNewSession (o : AppOracle) (k : Nat) (chat convId : String) (hasActive : Bool)
    (cache : SessionCache) : AppRoute × SessionCache :=
  if hasActive then (.newSessionConfirm, setEntry cache chat (awaitingEntry convId))
  else
    match (handle_contact_support o k chat convId cache).1.sessionId with
    | some sid =>
      (.newSessionStart (handle_contact_support o k chat convId cache).1,
       setEntry (handle_contact_support o k chat convId cache).2.1 chat
         (liveEntry convId sid "Waiting"))
    | none =>
      (.newSessionStart (handle_contact_support o k chat convId cache).1,
       (handle_contact_support o k chat convId cache).2.1)

/-- The text-based `yes` answer to the pending new-session confirmation. -/
def prConfirmYes (o : AppOracle) (k : Nat) (chat convId : String) (cache : SessionCache) :
    AppRoute × SessionCache :=
  match (handle_contact_support o k chat convId (setEntry cache chat {})).1.sessionId with
  | some sid =>
    (.confirmYes (handle_contact_support o k chat convId (setEntry cache chat {})).1,
     setEntry (handle_contact_support o k chat convId (setEntry cache chat {})).2.1 chat
       (liveEntry convId sid "Waiting"))
  | none =>
    (.confirmYes (handle_contact_support o k chat convId (setEntry cache chat {})).1,
     (handle_contact_support o k chat convId (setEntry cache chat {})).2.1)

/-- The text-based `no` answer to the pending new-session confirmation. -/
def prConfirmNo (o : AppOracle) (k : Nat) (chat convId : String) (cache : SessionCache) :
    AppRoute × SessionCache :=
  (.confirmNo (handle_continue_session o k chat convId (setEntry cache chat {})).1,
   (handle_continue_session o k chat convId (setEntry cache chat {})).2.1)

/-- The session-forwarding branch: re-fetch the live sessions, reset and show
the menu if none remain, otherwise record the session and forward. -/
def prForward (o : AppOracle) (k : Nat) (chat convId : String) (cache : SessionCache) :
    AppRoute × SessionCache :=
  match get_active_sessions o k with
  | [] => (.staleResetMenu, setEntry cache chat {})
  | s :: _ =>
    if o.forwardOk then
      if s.status = "Waiting" then
        (.forwardMsg convId s.id s.status o.queuePos true,
         setEntry cache chat (liveEntry convId s.id s.status))
      else
        (.forwardMsg convId s.id s.status none true,
         setEntry cache chat (liveEntry convId s.id s.status))
    else
      (.forwardMsg convId s.id s.status none false,
       setEntry cache chat (liveEntry convId s.id s.status))

/-- The auto-initiation branch for support-like free text. -/
def prAutoSession (o : AppOracle) (k : Nat) (chat convId : String) (cache : SessionCache) :
    AppRoute × SessionCache :=
  match (handle_contact_support o k chat convId cache).1.sessionId with
  | some sid =>
    if o.forwardOk then
      (.autoSession (handle_contact_support o k chat convId cache).1 (some true) o.queuePos,
       setEntry (handle_contact_support o k chat convId cache).2.1 chat
         (liveEntry convId sid "Waiting"))
    else
      (.autoSession (handle_contact_support o k chat convId cache).1 (some false) none,
       setEntry (handle_contact_support o k chat convId cache).2.1 chat
         (liveEntry convId sid "Waiting"))
  | none =>
    (.autoSession (handle_contact_support o k chat convId cache).1 none none,
     (handle_contact_support o k chat convId cache).2.1)

/-- The part of `process_incoming_message` that runs once a channel user and
conversation are resolved: menu triggers, legacy text commands, the pending
new-session confirmation, session forwarding, and the auto-initiation
heuristic, in the source order. `st` is the entry read before the
self-heal, mirroring the early `user_state = ...get(chat_id_str, {})`. -/
def processRegistered (o : AppOracle) (chat convId : String) (safe msgLower : List Char)
    (st : CacheEntry) (inSession hasActive : Bool) (cache : SessionCache) (k : Nat) :
    AppRoute × SessionCache :=
  if is_menu_command safe then (.menu hasActive, cache)
  else if [str "contact", str "support", str "contact support",
           str "customer support"].contains msgLower then (.menu hasActive, cache)
  else if [str "track", str "track case", str "case", str "my case"].contains msgLower then
    (.trackCase, cache)
  else if [str "new", str "new support", str "new session"].contains msgLower then
    prTextNewSession o k chat convId hasActive cache
  else if [str "main menu", str "menu"].contains msgLower then (.menu hasActive, cache)
  else if st.awaiting_confirmation = some "new_session" ∧ msgLower = str "yes" then
    prConfirmYes o k chat convId cache
  else if st.awaiting_confirmation = some "new_session" ∧ msgLower = str "no" then
    prConfirmNo o k chat convId cache
  else if inSession || hasActive then
    prForward o k chat convId cache
  else if isSupportLike safe msgLower then
    prAutoSession o k chat convId cache
  else (.menuNoSession, cache)

/-- app.py `process_incoming_message`: sanitize, validate the chat id, resolve
the channel user (unregistered chats go to the registration handler), resolve
the conversation, self-heal a stale cache entry against the live session list,
then dispatch. Returns the routing decision and the updated session cache. -/
def process_incoming_message (o : AppOracle) (enabled : Bool) (maxLen : Nat)
    (chat : String) (msg : List Char) (cache : SessionCache) : AppRoute × SessionCache :=
  let safe := sanitize_input enabled maxLen msg
  if !isDigitsStr chat then (.invalidChatId, cache)
  else
    let msgLower := pyLower (pyStrip safe)
    match check_existing_channel_user o with
    | none => (.registration (handle_new_user_registration o safe), cache)
    | some _ =>
      match get_active_support_conversation o with
      | none => (.noConversationMenu, cache)
      | some conv =>
        let st := cache chat
        let inSession0 := st.in_session.getD false
        let hasActive := !(get_active_sessions o 0).isEmpty
        if inSession0 && !hasActive then
          processRegistered o chat conv.id safe msgLower st false hasActive
            (setEntry cache chat {}) 1
        else
          processRegistered o chat conv.id safe msgLower st inSession0 hasActive cache 1

/-! ## app.py `get_queue_position` — the queue-rank computation -/

/-- `Status__c` of a `Chat_Session__c` as the queue queries see it. -/
inductive QStatus where
  | waiting
  | active
  | closed
  deriving DecidableEq

/-- A `Chat_Session__c` record with the fields the two queue queries read. -/
structure QSession where
  id : Nat
  conv : Nat
  status : QStatus
  created : Nat
  owner : String
  deriving DecidableEq

/-- Insertion step of the deterministic model of the Salesforce
`ORDER BY CreatedDate ASC`. -/
def insertByCreated (s : QSession) : List QSession → List QSession
  | [] => [s]
  | t :: ts => if s.created ≤ t.created then s :: t :: ts else t :: insertByCreated s ts

/-- `ORDER BY CreatedDate ASC` over a query result. -/
def sortByCreated (l : List QSession) : List QSession :=
  l.foldr insertByCreated []

/-- The session query filtered to the conversation and the Waiting status. -/
def waitingOfConv (db : List QSession) (c : Nat) : List QSession :=
  db.filter (fun s => s.conv == c && s.status == QStatus.waiting)

/-- The designated intake queue the second query filters on (`Owner.Name`). -/
def intakeQueueName : String := "New Telegram Messages"

/-- The query over Waiting sessions owned by the intake queue, ordered by
creation date ascending: the global intake-queue list. -/
def waitingIntake (db : List QSession) : List QSession :=
  sortByCreated (db.filter (fun s => s.owner == intakeQueueName && s.status == QStatus.waiting))

/-- First query of `get_queue_position`: the newest Waiting session of the
conversation (descending creation order, limit one). -/
def latestWaiting (db : List QSession) (c : Nat) : Option QSession :=
  (sortByCreated (waitingOfConv db c)).getLast?

/-- The enumeration loop of `get_queue_position`: index of the first record
satisfying `p`. -/
def findPos (p : QSession → Bool) : List QSession → Option Nat
  | [] => none
  | a :: l => if p a then some 0 else (findPos p l).map (· + 1)

/-- app.py `get_queue_position`: find the newest Waiting session of the caller,
then its position in the global intake-queue list, 1-based. -/
def get_queue_position (db : List QSession) (c : Nat) : Option Nat :=
  match latestWaiting db c with
  | none => none
  | some s =>
    match findPos (fun r => r.id == s.id) (waitingIntake db) with
    | some i => some (i + 1)
    | none => none

/-- The specification reading of queue position: one plus the number of
Waiting intake-queue sessions created earlier. -/
def queueRankSpec (db : List QSession) (s : QSession) : Nat :=
  1 + (db.filter (fun t => t.owner == intakeQueueName && t.status == QStatus.waiting)).countP
        (fun t => t.created < s.created)

/-- A session sitting in the global intake queue: present, Waiting, owned by
the designated queue. -/
def inIntakeQueue (db : List QSession) (s : QSession) : Prop :=
  s ∈ db ∧ s.status = QStatus.waiting ∧ s.owner = intakeQueueName

/-- `s` is the strictly newest Waiting session of its conversation. -/
def newestOfConv (db : List QSession) (s : QSession) : Prop :=
  ∀ t ∈ db, t.conv = s.conv → t.status = QStatus.waiting → t ≠ s → t.created < s.created

/-- Session ids are unique across the database. -/
def idsUnique (db : List QSession) : Prop :=
  ∀ t1 ∈ db, ∀ t2 ∈ db, t1.id = t2.id → t1 = t2

/-- Creation timestamps are distinct within the global intake queue. -/
def intakeCreatedDistinct (db : List QSession) : Prop :=
  ∀ t1 ∈ db, ∀ t2 ∈ db, t1.owner = intakeQueueName → t2.owner = intakeQueueName →
    t1.status = QStatus.waiting → t2.status = QStatus.waiting →
    t1.created = t2.created → t1 = t2

/-! ## Claim-level predicates and concrete fixtures -/

/-- Input invalid for the current registration step: not `male`/`female` at
the gender step; no space character at the name step. -/
def invalidInputFor (text : List Char) : FbStep → Prop
  | .gender => ¬(pyLower text = str "male" ∨ pyLower text = str "female")
  | .name _ => (splitOnceSpace text).2 = none

/-- Well-formedness of a session-cache entry: claiming an active session
forces the conversation id, session id and session status to be present. -/
def EntryWF (e : CacheEntry) : Prop :=
  e.in_session = some true →
    e.conversation_id.isSome ∧ e.session_id.isSome ∧ e.session_status.isSome

/-- A File.py CRM view where the chat is bound to a contact and contact
creation succeeds. -/
def fbCrmRegistered : FbOracle :=
  { contactByChatId := some ⟨"003C1", some "Abebe"⟩, thread := none,
    contactByPhone := none, contactByEmail := none, updateChatIdOk := true,
    createContactId := some "003NEW", forwardOk := true }

/-- An app.py CRM view where the channel-user lookup raises (CRM down during
identity resolution) while the registration collaborators would succeed. -/
def appCrmDown : AppOracle :=
  { authOk := true, channelUser := .exn, activeConversation := .ok none,
    sessions := fun _ => .ok [], contactByPhone := none,
    createChannelUser := some ("CU1", some "CV1"), createSessionOk := true,
    forwardOk := true, queuePos := none }

/-- An app.py CRM view of a registered chat with one Active session. -/
def appCrmActive : AppOracle :=
  { authOk := true, channelUser := .ok (some ⟨"CU9", some "Abe"⟩),
    activeConversation := .ok (some ⟨"CV9"⟩),
    sessions := fun _ => .ok [⟨"S1", "Active"⟩], contactByPhone := none,
    createChannelUser := none, createSessionOk := true,
    forwardOk := true, queuePos := some 2 }

/-- An app.py CRM view of a registered chat with no live session at all. -/
def appCrmNoSessions : AppOracle :=
  { appCrmActive with sessions := fun _ => .ok [], createSessionOk := false }

/-- The empty session cache. -/
def emptySessionCache : SessionCache := fun _ => {}

/-- A lone message of 4000 spaces followed by `menu`: its stripped, lowercased
form is exactly the menu trigger `menu`, but it exceeds the default
`MAX_MESSAGE_LENGTH` of 4000. -/
def paddedMenuMsg : List Char := List.replicate 4000 ' ' ++ str "menu"

/-- A session database for the queue-position instances: three Waiting intake
sessions of three conversations created at times 1 < 2 < 3, plus an Active
one. -/
def qdbW : List QSession :=
  [⟨1, 10, QStatus.waiting, 1, "New Telegram Messages"⟩,
   ⟨2, 20, QStatus.waiting, 2, "New Telegram Messages"⟩,
   ⟨3, 30, QStatus.waiting, 3, "New Telegram Messages"⟩,
   ⟨4, 10, QStatus.active, 9, "New Telegram Messages"⟩]

/-! ## Helper lemmas on the string and phone primitives -/

theorem digitsOf_isDigit (s : List Char) : ∀ c ∈ digitsOf s, c.isDigit = true :=
  fun _ hc => List.of_mem_filter hc

theorem beginsWith_plus_of_digits (l : List Char) (h : ∀ c ∈ l, c.isDigit = true) :
    beginsWith (str "+251") l = false := by
  cases l with
  | nil => decide
  | cons c t =>
    have hc := h c (List.mem_cons_self c t)
    have hne : ('+' == c) = false := by
      cases hq : ('+' == c) with
      | false => rfl
      | true =>
        have hce : c = '+' := (beq_iff_eq.mp hq).symm
        rw [hce] at hc
        exact absurd hc (by decide)
    rw [show str "+251" = '+' :: str "251" from rfl]
    simp [beginsWith, hne]

theorem destruct_begins1 {a : Char} {p s : List Char} (h : beginsWith (a :: p) s = true) :
    ∃ t, s = a :: t ∧ beginsWith p t = true := by
  cases s with
  | nil => simp [beginsWith] at h
  | cons b bs =>
    simp only [beginsWith, Bool.and_eq_true, beq_iff_eq] at h
    exact ⟨bs, by rw [h.1], h.2⟩

theorem phoneCore_destruct {s : List Char} (h : phoneCore s = true) :
    ∃ c d8, s = c :: d8 ∧ (c = '9' ∨ c = '7') ∧ d8.length = 8 ∧ d8.all Char.isDigit = true := by
  cases s with
  | nil => simp [phoneCore] at h
  | cons c rest =>
    simp only [phoneCore, Bool.and_eq_true, Bool.or_eq_true, beq_iff_eq] at h
    exact ⟨c, rest, rfl, h.1.1, h.1.2, h.2⟩

theorem filter_digits_of_all (l : List Char) (h : l.all Char.isDigit = true) :
    List.filter Char.isDigit l = l :=
  List.filter_eq_self.mpr (fun a ha => List.all_eq_true.mp h a ha)

theorem sanitize_phone_core (c : Char) (d8 : List Char) (hc : c = '9' ∨ c = '7')
    (h8 : d8.length = 8) (hd : d8.all Char.isDigit = true) :
    sanitize_phone_number ('0' :: c :: d8) = '0' :: c :: d8
  ∧ sanitize_phone_number (c :: d8) = '0' :: c :: d8
  ∧ sanitize_phone_number ('2' :: '5' :: '1' :: c :: d8) = '0' :: c :: d8
  ∧ sanitize_phone_number ('+' :: '2' :: '5' :: '1' :: c :: d8) = '0' :: c :: d8
  ∧ clean_phone_number ('0' :: c :: d8) = '0' :: c :: d8
  ∧ clean_phone_number (c :: d8) = '0' :: c :: d8
  ∧ clean_phone_number ('2' :: '5' :: '1' :: c :: d8) = '0' :: c :: d8
  ∧ clean_phone_number ('+' :: '2' :: '5' :: '1' :: c :: d8) = '0' :: c :: d8 := by
  have hfd : List.filter Char.isDigit d8 = d8 := filter_digits_of_all d8 hd
  rcases hc with rfl | rfl <;>
  · refine ⟨?_, ?_, ?_, ?_, ?_, ?_, ?_, ?_⟩ <;>
    simp [sanitize_phone_number, clean_phone_number, digitsOf, List.filter_cons, hfd, h8, hd,
          beginsWith, matchesMobile, str]

/-! ## Claims C6 and C7 — phone normalization -/

/-- C6, counterexample: on the input 2510912345678 (13 digits: country code
followed by a full local number) the hardened normalizer returns the empty
string, while the algorithm the claim describes would drop the 251 prefix and
accept 0912345678 — the code as written is not the claimed algorithm. -/
theorem c6_cx_long_prefixed_number :
    sanitize_phone_number (str "2510912345678") = []
  ∧ claimPhoneNormalize (str "2510912345678") = str "0912345678"
  ∧ sanitize_phone_number (str "2510912345678") ≠ claimPhoneNormalize (str "2510912345678") :=
  ⟨by decide, by decide, by decide⟩

/-- C6, amended: for every input, `sanitize_phone_number` strips all
non-digit characters, rejects the input as invalid when fewer than 9 or more
than 12 digits remain, then drops a leading 251 country prefix, prepends 0
when the remainder does not start with 0, and returns the result exactly when
it matches the pattern 0[79] followed by eight digits — empty otherwise. -/
theorem c6_normalizer_amended (s : List Char) :
    sanitize_phone_number s = claimPhoneNormalizeAmended s := by
  by_cases hs : s = []
  · subst hs; decide
  · have hp : beginsWith (str "+251") (digitsOf s) = false :=
      beginsWith_plus_of_digits _ (digitsOf_isDigit s)
    unfold sanitize_phone_number claimPhoneNormalizeAmended
    rw [if_neg hs]
    simp only [hp, Bool.false_eq_true, if_false]

/-- C7: for every phone string matching the registration pattern
(\+?251|0)?[97] followed by eight digits, both the hardened normalizer of
app.py and the cosmetic-cleanup normalizer of File.py are idempotent. -/
theorem c7_normalize_idempotent (s : List Char) (h : matchesRegistrationPhone s = true) :
    sanitize_phone_number (sanitize_phone_number s) = sanitize_phone_number s
  ∧ clean_phone_number (clean_phone_number s) = clean_phone_number s := by
  simp only [matchesRegistrationPhone, Bool.or_eq_true, Bool.and_eq_true] at h
  rcases h with ((hcore | ⟨h0, hcore⟩) | ⟨h251, hcore⟩) | ⟨hplus, hcore⟩
  · obtain ⟨c, d8, rfl, hc, h8, hd⟩ := phoneCore_destruct hcore
    obtain ⟨A, B, _, _, E, F, _, _⟩ := sanitize_phone_core c d8 hc h8 hd
    exact ⟨by rw [B, A], by rw [F, E]⟩
  · have h0a : beginsWith ('0' :: ([] : List Char)) s = true := h0
    obtain ⟨t, rfl, _⟩ := destruct_begins1 h0a
    simp only [List.drop_succ_cons, List.drop_zero] at hcore
    obtain ⟨c, d8, rfl, hc, h8, hd⟩ := phoneCore_destruct hcore
    obtain ⟨A, _, _, _, E, _, _, _⟩ := sanitize_phone_core c d8 hc h8 hd
    exact ⟨by rw [A, A], by rw [E, E]⟩
  · have ha : beginsWith ('2' :: '5' :: '1' :: ([] : List Char)) s = true := h251
    obtain ⟨t1, rfl, hb⟩ := destruct_begins1 ha
    obtain ⟨t2, rfl, hc2⟩ := destruct_begins1 hb
    obtain ⟨t3, rfl, _⟩ := destruct_begins1 hc2
    simp only [List.drop_succ_cons, List.drop_zero] at hcore
    obtain ⟨c, d8, rfl, hc, h8, hd⟩ := phoneCore_destruct hcore
    obtain ⟨A, _, C, _, E, _, G, _⟩ := sanitize_phone_core c d8 hc h8 hd
    exact ⟨by rw [C, A], by rw [G, E]⟩
  · have ha : beginsWith ('+' :: '2' :: '5' :: '1' :: ([] : List Char)) s = true := hplus
    obtain ⟨t1, rfl, hb⟩ := destruct_begins1 ha
    obtain ⟨t2, rfl, hc2⟩ := destruct_begins1 hb
    obtain ⟨t3, rfl, hd2⟩ := destruct_begins1 hc2
    obtain ⟨t4, rfl, _⟩ := destruct_begins1 hd2
    simp only [List.drop_succ_cons, List.drop_zero] at hcore
    obtain ⟨c, d8, rfl, hc, h8, hd⟩ := phoneCore_destruct hcore
    obtain ⟨A, _, _, D, E, _, _, H⟩ := sanitize_phone_core c d8 hc h8 hd
    exact ⟨by rw [D, A], by rw [H, E]⟩

theorem c7_witness :
    matchesRegistrationPhone (str "+251912121212") = true
  ∧ (sanitize_phone_number (sanitize_phone_number (str "+251912121212"))
       = sanitize_phone_number (str "+251912121212")
     ∧ clean_phone_number (clean_phone_number (str "+251912121212"))
       = clean_phone_number (str "+251912121212")) :=
  ⟨by decide, c7_normalize_idempotent (str "+251912121212") (by decide)⟩

/-! ## Claims C5 and C9 — the registration flow of File.py -/

/-- C5, counterexample: the input John followed by a trailing space has a
single whitespace-separated token, yet at the name step the flow calls the
CRM create with an empty last name and clears the state instead of leaving
the step unchanged — because the code splits on the literal space character,
not on whitespace tokens. -/
theorem c5_cx_trailing_space :
    tokenCount (str "John ") < 2
  ∧ handle_registration_flow fbCrmRegistered (str "John ") (str "0912121212")
      (.name (str "male"))
      = (.contactCreated (str "John") [] (str "0912121212") (str "male") "003NEW", none)
  ∧ (handle_registration_flow fbCrmRegistered (str "John ") (str "0912121212")
      (.name (str "male"))).2
      ≠ some (.registration (str "0912121212") (.name (str "male"))) :=
  ⟨by decide, by decide, by decide⟩

/-- C5, amended: for every registration state and every input invalid for its
current step — a non male/female string while awaiting the gender, or an
input containing no space character while awaiting the name — processing the
input re-prompts the same step and leaves the per-chat registration step
unchanged. -/
theorem c5_invalid_input_same_step (o : FbOracle) (text phone : List Char) (step : FbStep)
    (h : invalidInputFor text step) :
    handle_registration_flow o text phone step
      = ((match step with
          | .gender => RegFlowResult.genderReprompt
          | .name _ => RegFlowResult.nameReprompt),
         some (.registration phone step)) := by
  cases step with
  | gender =>
    simp only [invalidInputFor] at h
    simp [handle_registration_flow, h]
  | name g =>
    simp only [invalidInputFor] at h
    cases hsp : splitOnceSpace text with
    | mk a b =>
      rw [hsp] at h
      simp only at h
      subst h
      simp [handle_registration_flow, hsp]

theorem c5_witness :
    handle_registration_flow fbCrmRegistered (str "x") (str "0912121212") FbStep.gender
      = (RegFlowResult.genderReprompt,
         some (FbUserState.registration (str "0912121212") FbStep.gender)) :=
  c5_invalid_input_same_step fbCrmRegistered (str "x") (str "0912121212") FbStep.gender
    (by simp only [invalidInputFor]; decide)

/-- C9, counterexample: the input John, a tab, then Smith consists of two
whitespace-separated tokens, yet the name step re-prompts and creates no CRM
record, because the code splits on the literal space character only. -/
theorem c9_cx_tab_separated :
    2 ≤ tokenCount (str "John\tSmith")
  ∧ handle_registration_flow fbCrmRegistered (str "John\tSmith") (str "0912121212")
      (.name (str "male"))
      = (.nameReprompt, some (.registration (str "0912121212") (.name (str "male")))) :=
  ⟨by decide, by decide⟩

/-- C9, amended: for every awaiting-name input containing at least one space
character, the flow creates the CRM contact with the prefix before the first
space as the first name and the verbatim remainder after the first space as
the last name, together with the phone and gender accumulated in the
registration state; on successful creation the per-chat state is cleared. -/
theorem c9_name_split_on_space (o : FbOracle) (text phone g pre post : List Char) (cid : String)
    (hsplit : splitOnceSpace text = (pre, some post))
    (hcreate : o.createContactId = some cid) :
    handle_registration_flow o text phone (.name g)
      = (.contactCreated pre post phone g cid, none) := by
  simp [handle_registration_flow, hsplit, hcreate]

theorem c9_witness :
    handle_registration_flow fbCrmRegistered (str "Abebe Kebede") (str "0912121212")
      (.name (str "male"))
      = (.contactCreated (str "Abebe") (str "Kebede") (str "0912121212") (str "male")
          "003NEW", none) :=
  c9_name_split_on_space fbCrmRegistered (str "Abebe Kebede") (str "0912121212")
    (str "male") (str "Abebe") (str "Kebede") "003NEW" (by decide) rfl

/-! ## Claim C2 — registered chats and the registration flow -/

/-- C2, counterexample: a chat whose CRM contact exists but whose
`user_states` entry still holds a leftover registration state is routed into
the registration flow by `handle_registered_user`, advancing the gender step
on the message male — registration steps do run for a Registered identity. -/
theorem c2_cx_leftover_state :
    fb_webhook fbCrmRegistered (str "male")
        (some (.registration (str "0912121212") .gender))
      = (.registrationFlow .genderAccepted,
         some (.registration (str "0912121212") (.name (str "male")))) := by
  decide

/-- C2, amended: once a chat resolves as Registered, handling an inbound
message never executes a registration-flow step, provided the chat has no
leftover per-chat registration state (the normal situation, since the state
is cleared on successful record creation); with such leftover state the
message is routed into the registration flow despite the CRM record. -/
theorem c2_registered_skips_registration (o : FbOracle) (text : List Char)
    (st : Option FbUserState) (c : FbContact)
    (hreg : o.contactByChatId = some c)
    (hst : ∀ phone step, st ≠ some (.registration phone step)) :
    ∀ r, (fb_webhook o text st).1 ≠ .registrationFlow r := by
  intro r
  unfold fb_webhook
  split
  · simp
  · simp only [hreg]
    rcases st with _ | stv
    · simp only [handle_registered_user]
      cases hth : o.thread with
      | none =>
        simp only [hth, fbMenuSelect]
        split
        · simp
        · split <;> simp
      | some th =>
        simp only [hth]
        split
        · simp
        · split
          · simp
          · split
            · simp
            · simp only [fbMenuSelect]
              split
              · simp
              · split <;> simp
    · cases stv with
      | registration phone step => exact absurd rfl (hst phone step)
      | supportDescription => simp [handle_registered_user]

theorem c2_witness :
    (fb_webhook fbCrmRegistered (str "hello there") none).1
      ≠ FbRoute.registrationFlow RegFlowResult.genderAccepted :=
  c2_registered_skips_registration fbCrmRegistered (str "hello there") none
    ⟨"003C1", some "Abebe"⟩ rfl (fun _ _ h => Option.noConfusion h)
    RegFlowResult.genderAccepted

/-! ## Helper lemmas on the app.py router -/

theorem processRegistered_st_congr (o : AppOracle) (chat convId : String) (safe ml : List Char)
    (st1 st2 : CacheEntry) (h : st1.awaiting_confirmation = st2.awaiting_confirmation)
    (inS hA : Bool) (cache : SessionCache) (k : Nat) :
    processRegistered o chat convId safe ml st1 inS hA cache k
      = processRegistered o chat convId safe ml st2 inS hA cache k := by
  unfold processRegistered
  rw [h]

theorem prTextNewSession_ne_forward (o : AppOracle) (k : Nat) (chat convId : String)
    (hA : Bool) (cache : SessionCache) (a b c : String) (d : Option Nat) (e : Bool) :
    (prTextNewSession o k chat convId hA cache).1 ≠ .forwardMsg a b c d e := by
  unfold prTextNewSession
  split
  · simp
  · split <;> simp

theorem prConfirmYes_ne_forward (o : AppOracle) (k : Nat) (chat convId : String)
    (cache : SessionCache) (a b c : String) (d : Option Nat) (e : Bool) :
    (prConfirmYes o k chat convId cache).1 ≠ .forwardMsg a b c d e := by
  unfold prConfirmYes
  split <;> simp

theorem prConfirmNo_ne_forward (o : AppOracle) (k : Nat) (chat convId : String)
    (cache : SessionCache) (a b c : String) (d : Option Nat) (e : Bool) :
    (prConfirmNo o k chat convId cache).1 ≠ .forwardMsg a b c d e := by
  simp [prConfirmNo]

theorem prAutoSession_ne_forward (o : AppOracle) (k : Nat) (chat convId : String)
    (cache : SessionCache) (a b c : String) (d : Option Nat) (e : Bool) :
    (prAutoSession o k chat convId cache).1 ≠ .forwardMsg a b c d e := by
  unfold prAutoSession
  split
  · split <;> simp
  · simp

theorem processRegistered_no_forward (o : AppOracle) (chat convId : String) (safe ml : List Char)
    (st : CacheEntry) (cache : SessionCache) (k : Nat) :
    ∀ a b c d e, (processRegistered o chat convId safe ml st false false cache k).1
      ≠ .forwardMsg a b c d e := by
  intro a b c d e
  simp only [processRegistered, Bool.or_self, Bool.false_eq_true, if_false]
  split
  · simp
  split
  · simp
  split
  · simp
  split
  · exact prTextNewSession_ne_forward o _ chat convId _ cache a b c d e
  split
  · simp
  split
  · exact prConfirmYes_ne_forward o _ chat convId cache a b c d e
  split
  · exact prConfirmNo_ne_forward o _ chat convId cache a b c d e
  split
  · exact prAutoSession_ne_forward o _ chat convId cache a b c d e
  simp

theorem entryWF_empty : EntryWF {} := fun h => Option.noConfusion h

theorem entryWF_live (a b c : String) : EntryWF (liveEntry a b c) := fun _ => ⟨rfl, rfl, rfl⟩

theorem entryWF_awaiting (cv : String) : EntryWF (awaitingEntry cv) := fun h => Option.noConfusion h

theorem setEntry_WF {cache : SessionCache} {key : String} {e : CacheEntry}
    (hc : ∀ k, EntryWF (cache k)) (he : EntryWF e) :
    ∀ k, EntryWF (setEntry cache key e k) := by
  intro k
  show EntryWF (if k = key then e else cache k)
  split
  · exact he
  · exact hc k

theorem hcs_WF (o : AppOracle) (i : Nat) (chat convId : String) (cache : SessionCache)
    (hc : ∀ k, EntryWF (cache k)) :
    ∀ k, EntryWF ((handle_contact_support o i chat convId cache).2.1 k) := by
  intro k
  unfold handle_contact_support
  split
  · exact hc k
  · split
    · exact setEntry_WF hc (entryWF_live _ _ _) k
    · split
      · exact hc k
      · split
        · exact hc k
        · exact setEntry_WF hc (entryWF_live _ _ _) k

theorem hcont_WF (o : AppOracle) (i : Nat) (chat convId : String) (cache : SessionCache)
    (hc : ∀ k, EntryWF (cache k)) :
    ∀ k, EntryWF ((handle_continue_session o i chat convId cache).2.1 k) := by
  intro k
  unfold handle_continue_session
  split
  · exact hc k
  · exact setEntry_WF hc (entryWF_live _ _ _) k

theorem prTextNewSession_WF (o : AppOracle) (k : Nat) (chat convId : String) (hA : Bool)
    (cache : SessionCache) (hc : ∀ x, EntryWF (cache x)) :
    ∀ x, EntryWF ((prTextNewSession o k chat convId hA cache).2 x) := by
  intro x
  unfold prTextNewSession
  split
  · exact setEntry_WF hc (entryWF_awaiting _) x
  · split
    · exact setEntry_WF (hcs_WF _ _ _ _ _ hc) (entryWF_live _ _ _) x
    · exact hcs_WF _ _ _ _ _ hc x

theorem prConfirmYes_WF (o : AppOracle) (k : Nat) (chat convId : String)
    (cache : SessionCache) (hc : ∀ x, EntryWF (cache x)) :
    ∀ x, EntryWF ((prConfirmYes o k chat convId cache).2 x) := by
  intro x
  unfold prConfirmYes
  split
  · exact setEntry_WF (hcs_WF _ _ _ _ _ (setEntry_WF hc entryWF_empty)) (entryWF_live _ _ _) x
  · exact hcs_WF _ _ _ _ _ (setEntry_WF hc entryWF_empty) x

theorem prConfirmNo_WF (o : AppOracle) (k : Nat) (chat convId : String)
    (cache : SessionCache) (hc : ∀ x, EntryWF (cache x)) :
    ∀ x, EntryWF ((prConfirmNo o k chat convId cache).2 x) := by
  intro x
  exact hcont_WF _ _ _ _ _ (setEntry_WF hc entryWF_empty) x

theorem prForward_WF (o : AppOracle) (k : Nat) (chat convId : String)
    (cache : SessionCache) (hc : ∀ x, EntryWF (cache x)) :
    ∀ x, EntryWF ((prForward o k chat convId cache).2 x) := by
  intro x
  unfold prForward
  split
  · exact setEntry_WF hc entryWF_empty x
  · split
    · split
      · exact setEntry_WF hc (entryWF_live _ _ _) x
      · exact setEntry_WF hc (entryWF_live _ _ _) x
    · exact setEntry_WF hc (entryWF_live _ _ _) x

theorem prAutoSession_WF (o : AppOracle) (k : Nat) (chat convId : String)
    (cache : SessionCache) (hc : ∀ x, EntryWF (cache x)) :
    ∀ x, EntryWF ((prAutoSession o k chat convId cache).2 x) := by
  intro x
  unfold prAutoSession
  split
  · split
    · exact setEntry_WF (hcs_WF _ _ _ _ _ hc) (entryWF_live _ _ _) x
    · exact setEntry_WF (hcs_WF _ _ _ _ _ hc) (entryWF_live _ _ _) x
  · exact hcs_WF _ _ _ _ _ hc x

theorem processRegistered_WF (o : AppOracle) (chat convId : String) (safe ml : List Char)
    (st : CacheEntry) (inS hA : Bool) (cache : SessionCache) (k : Nat)
    (hc : ∀ x, EntryWF (cache x)) :
    ∀ x, EntryWF ((processRegistered o chat convId safe ml st inS hA cache k).2 x) := by
  intro x
  unfold processRegistered
  split
  · exact hc x
  split
  · exact hc x
  split
  · exact hc x
  split
  · exact prTextNewSession_WF _ _ _ _ _ _ hc x
  split
  · exact hc x
  split
  · exact prConfirmYes_WF _ _ _ _ _ hc x
  split
  · exact prConfirmNo_WF _ _ _ _ _ hc x
  split
  · exact prForward_WF _ _ _ _ _ hc x
  split
  · exact prAutoSession_WF _ _ _ _ _ hc x
  exact hc x

/-! ## Claims C1, C3, C4, C10 — the app.py router -/

/-- C1, counterexample: when the channel-user lookup raises (CRM down), the
router proceeds straight into the registration flow for the phone message
0912121212 — looking up the contact by phone and attempting the
channel-user/conversation creation writes — instead of signalling a distinct
resolution-unavailable outcome. -/
theorem c1_cx_enters_registration :
    (process_incoming_message appCrmDown true 4000 "111" (str "0912121212") emptySessionCache).1
      = .registration (.createAttempt (str "0912121212") none (some ("CU1", some "CV1"))) := by
  decide

/-- C1, amended: a failure of the CRM lookup used for identity resolution —
an exception or a non-200 response — makes `check_existing_channel_user`
return no record, and the router then behaves exactly as it does for a
confirmed-unregistered chat: the whole routing result, registration flow and
CRM writes included, is identical to the empty-lookup run. There is no
distinct resolution-unavailable outcome. -/
theorem c1_resolution_failure_as_unregistered (o : AppOracle) (enabled : Bool) (maxLen : Nat)
    (chat : String) (msg : List Char) (cache : SessionCache) :
    process_incoming_message { o with channelUser := .exn } enabled maxLen chat msg cache
      = process_incoming_message { o with channelUser := .ok none } enabled maxLen chat msg cache
  ∧ process_incoming_message { o with channelUser := .httpErr } enabled maxLen chat msg cache
      = process_incoming_message { o with channelUser := .ok none } enabled maxLen chat msg cache :=
  ⟨rfl, rfl⟩

set_option maxRecDepth 40000

/-- C3, counterexample: a message of 4000 spaces followed by menu is, after
trimming and case-folding, exactly the menu trigger menu; but input
sanitization truncates it to the 4000 spaces first, so with an Active session
the router forwards it into the session instead of showing the menu. -/
theorem c3_cx_truncated_trigger :
    pyLower (pyStrip paddedMenuMsg) = str "menu"
  ∧ (process_incoming_message appCrmActive true 4000 "222" paddedMenuMsg emptySessionCache).1
      = .forwardMsg "CV9" "S1" "Active" none true := by
  constructor
  · decide
  · decide

/-- C3, amended: for every registered chat (channel user and conversation
resolved), if the inbound message is still an exact menu-trigger after input
sanitization (NUL-byte removal and truncation to the configured maximum
length), the router shows the menu — carrying the live has-active-session
flag — and in particular never forwards the message into a session: the
menu-trigger check precedes the session-forwarding branch. -/
theorem c3_menu_trigger_shows_menu (o : AppOracle) (enabled : Bool) (maxLen : Nat)
    (chat : String) (msg : List Char) (cache : SessionCache)
    (cu : ChannelUser) (conv : SupportConversation)
    (hchat : isDigitsStr chat = true)
    (hcu : check_existing_channel_user o = some cu)
    (hconv : get_active_support_conversation o = some conv)
    (hmenu : is_menu_command (sanitize_input enabled maxLen msg) = true) :
    (process_incoming_message o enabled maxLen chat msg cache).1
      = .menu (!(get_active_sessions o 0).isEmpty) := by
  simp only [process_incoming_message, hchat, hcu, hconv, Bool.not_true, Bool.false_eq_true,
    if_false, processRegistered, hmenu, if_true]
  split <;> rfl

theorem c3_witness :
    (process_incoming_message appCrmActive true 4000 "222" (str " MENU ") emptySessionCache).1
      = .menu true :=
  c3_menu_trigger_shows_menu appCrmActive true 4000 "222" (str " MENU ") emptySessionCache
    ⟨"CU9", some "Abe"⟩ ⟨"CV9"⟩ (by decide) rfl rfl (by decide)

/-- C4: when the per-chat cache entry claims an active session but the live
session query of this request returns the empty list, the router discards the
entry and the whole request — routing decision and final cache — is identical
to the run whose cache entry was already empty (the no-active-session
behavior); the message is never forwarded into the stale session, and a menu
trigger shows the no-session menu. -/
theorem c4_cache_self_heal (o : AppOracle) (enabled : Bool) (maxLen : Nat) (chat : String)
    (msg : List Char) (cache : SessionCache) (cu : ChannelUser) (conv : SupportConversation)
    (hchat : isDigitsStr chat = true)
    (hcu : check_existing_channel_user o = some cu)
    (hconv : get_active_support_conversation o = some conv)
    (hin : (cache chat).in_session = some true)
    (haw : (cache chat).awaiting_confirmation = none)
    (hlive : get_active_sessions o 0 = []) :
    process_incoming_message o enabled maxLen chat msg cache
      = process_incoming_message o enabled maxLen chat msg (setEntry cache chat {})
  ∧ (∀ a b c d e, (process_incoming_message o enabled maxLen chat msg cache).1
      ≠ .forwardMsg a b c d e)
  ∧ (is_menu_command (sanitize_input enabled maxLen msg) = true →
      (process_incoming_message o enabled maxLen chat msg cache).1 = .menu false) := by
  have hset : (setEntry cache chat {}) chat = ({} : CacheEntry) := by simp [setEntry]
  have key1 : process_incoming_message o enabled maxLen chat msg cache
      = processRegistered o chat conv.id (sanitize_input enabled maxLen msg)
          (pyLower (pyStrip (sanitize_input enabled maxLen msg))) (cache chat) false false
          (setEntry cache chat {}) 1 := by
    simp [process_incoming_message, hchat, hcu, hconv, hlive, hin]
  have key2 : process_incoming_message o enabled maxLen chat msg (setEntry cache chat {})
      = processRegistered o chat conv.id (sanitize_input enabled maxLen msg)
          (pyLower (pyStrip (sanitize_input enabled maxLen msg))) ({} : CacheEntry) false false
          (setEntry cache chat {}) 1 := by
    simp [process_incoming_message, hchat, hcu, hconv, hlive, hset]
  refine ⟨?_, ?_, ?_⟩
  · rw [key1, key2]
    exact processRegistered_st_congr _ _ _ _ _ _ _ (by rw [haw]) _ _ _ _
  · intro a b c d e
    rw [key1]
    exact processRegistered_no_forward _ _ _ _ _ _ _ _ a b c d e
  · intro hm
    rw [key1]
    simp [processRegistered, hm]

theorem c4_witness :
    process_incoming_message appCrmNoSessions true 4000 "222" (str "ok")
        (fun _ => liveEntry "CV9" "S9" "Active")
      = process_incoming_message appCrmNoSessions true 4000 "222" (str "ok")
          (setEntry (fun _ => liveEntry "CV9" "S9" "Active") "222" {})
  ∧ (∀ a b c d e, (process_incoming_message appCrmNoSessions true 4000 "222" (str "ok")
        (fun _ => liveEntry "CV9" "S9" "Active")).1 ≠ .forwardMsg a b c d e)
  ∧ (is_menu_command (sanitize_input true 4000 (str "ok")) = true →
      (process_incoming_message appCrmNoSessions true 4000 "222" (str "ok")
        (fun _ => liveEntry "CV9" "S9" "Active")).1 = .menu false) :=
  c4_cache_self_heal appCrmNoSessions true 4000 "222" (str "ok")
    (fun _ => liveEntry "CV9" "S9" "Active") ⟨"CU9", some "Abe"⟩ ⟨"CV9"⟩
    (by decide) rfl rfl rfl rfl rfl

/-- C10: any session cache satisfying the entry invariant — an entry claiming
an active session carries the conversation id, session id and session status
— still satisfies it after `process_incoming_message` runs, for every oracle,
configuration, chat and message: every write that sets `in_session` to true
also sets the three identifiers. -/
theorem c10_in_session_entries_complete (o : AppOracle) (enabled : Bool) (maxLen : Nat)
    (chat : String) (msg : List Char) (cache : SessionCache)
    (hc : ∀ x, EntryWF (cache x)) :
    ∀ x, EntryWF ((process_incoming_message o enabled maxLen chat msg cache).2 x) := by
  intro x
  simp only [process_incoming_message]
  split
  · exact hc x
  · split
    · exact hc x
    · split
      · exact hc x
      · split
        · exact processRegistered_WF _ _ _ _ _ _ _ _ _ _ (setEntry_WF hc entryWF_empty) x
        · exact processRegistered_WF _ _ _ _ _ _ _ _ _ _ hc x

theorem c10_witness :
    EntryWF ((process_incoming_message appCrmActive true 4000 "222" (str "hi folks")
      emptySessionCache).2 "222") :=
  c10_in_session_entries_complete appCrmActive true 4000 "222" (str "hi folks")
    emptySessionCache (fun _ => entryWF_empty) "222"
theorem mem_insertByCreated {a s : QSession} {l : List QSession} :
    a ∈ insertByCreated s l ↔ a = s ∨ a ∈ l := by
  induction l with
  | nil => simp [insertByCreated]
  | cons t ts ih =>
    unfold insertByCreated
    split
    · simp [List.mem_cons]
    · simp [List.mem_cons, ih]
      tauto

theorem mem_sortByCreated {a : QSession} {l : List QSession} :
    a ∈ sortByCreated l ↔ a ∈ l := by
  induction l with
  | nil => simp [sortByCreated]
  | cons t ts ih =>
    show a ∈ insertByCreated t (sortByCreated ts) ↔ _
    rw [mem_insertByCreated, ih]
    simp [List.mem_cons]

theorem pairwise_insertByCreated {s : QSession} {l : List QSession}
    (h : l.Pairwise (fun a b => a.created ≤ b.created)) :
    (insertByCreated s l).Pairwise (fun a b => a.created ≤ b.created) := by
  induction l with
  | nil => simp [insertByCreated]
  | cons t ts ih =>
    rw [List.pairwise_cons] at h
    obtain ⟨ht, hts⟩ := h
    unfold insertByCreated
    split
    · rename_i hle
      rw [List.pairwise_cons]
      refine ⟨?_, ?_⟩
      · intro x hx
        rcases List.mem_cons.mp hx with rfl | hx
        · exact hle
        · exact le_trans hle (ht x hx)
      · rw [List.pairwise_cons]
        exact ⟨ht, hts⟩
    · rename_i hgt
      rw [List.pairwise_cons]
      refine ⟨?_, ih hts⟩
      intro x hx
      rcases mem_insertByCreated.mp hx with rfl | hx
      · omega
      · exact ht x hx

theorem pairwise_sortByCreated (l : List QSession) :
    (sortByCreated l).Pairwise (fun a b => a.created ≤ b.created) := by
  induction l with
  | nil => simp [sortByCreated]
  | cons t ts ih => exact pairwise_insertByCreated ih

theorem countP_insertByCreated (p : QSession → Bool) (s : QSession) (l : List QSession) :
    (insertByCreated s l).countP p = l.countP p + if p s then 1 else 0 := by
  induction l with
  | nil => simp [insertByCreated, List.countP_cons]
  | cons t ts ih =>
    unfold insertByCreated
    split
    · simp only [List.countP_cons]
    · simp only [List.countP_cons, ih]
      omega

theorem countP_sortByCreated (p : QSession → Bool) (l : List QSession) :
    (sortByCreated l).countP p = l.countP p := by
  induction l with
  | nil => simp [sortByCreated]
  | cons t ts ih =>
    show (insertByCreated t (sortByCreated ts)).countP p = _
    rw [countP_insertByCreated, ih, List.countP_cons]

theorem findPos_rank : ∀ (l : List QSession) (s : QSession),
    l.Pairwise (fun a b => a.created ≤ b.created) → s ∈ l →
    (∀ t ∈ l, t.id = s.id → t = s) →
    (∀ t ∈ l, t ≠ s → t.created ≠ s.created) →
    findPos (fun r => r.id == s.id) l = some (l.countP (fun t => t.created < s.created)) := by
  intro l
  induction l with
  | nil => intro s _ hmem _ _; cases hmem
  | cons h t ih =>
    intro s hsorted hmem hid hcre
    rw [List.pairwise_cons] at hsorted
    obtain ⟨hht, hts⟩ := hsorted
    by_cases hhs : h.id = s.id
    · have hhe : h = s := hid h (List.mem_cons_self h t) hhs
      subst hhe
      have hcnt : (h :: t).countP (fun x => x.created < h.created) = 0 := by
        apply List.countP_eq_zero.mpr
        intro a ha
        rcases List.mem_cons.mp ha with rfl | ha
        · simp
        · have := hht a ha
          simp only [decide_eq_true_eq]
          omega
      rw [hcnt]
      simp [findPos]
    · have hne : h ≠ s := fun he => hhs (by rw [he])
      have hmem2 : s ∈ t := by
        rcases List.mem_cons.mp hmem with he | hm
        · exact absurd he.symm hne
        · exact hm
      have hlt : h.created < s.created :=
        lt_of_le_of_ne (hht s hmem2) (hcre h (List.mem_cons_self h t) hne)
      have hr := ih s hts hmem2 (fun x hx => hid x (List.mem_cons_of_mem h hx))
        (fun x hx => hcre x (List.mem_cons_of_mem h hx))
      have hbeq : (h.id == s.id) = false := by simp [hhs]
      simp [findPos, hbeq, hr, List.countP_cons, hlt]

theorem getLast_sorted_max : ∀ (l : List QSession) (s : QSession),
    l.Pairwise (fun a b => a.created ≤ b.created) → s ∈ l →
    (∀ t ∈ l, t ≠ s → t.created < s.created) → l.getLast? = some s := by
  intro l
  induction l with
  | nil => intro s _ hmem _; cases hmem
  | cons a t ih =>
    intro s hsorted hmem hmax
    rw [List.pairwise_cons] at hsorted
    obtain ⟨hat, hts⟩ := hsorted
    cases t with
    | nil =>
      rcases List.mem_cons.mp hmem with rfl | h
      · rfl
      · cases h
    | cons b t2 =>
      rw [List.getLast?_cons_cons]
      have hmem2 : s ∈ b :: t2 := by
        by_cases hsb : s ∈ b :: t2
        · exact hsb
        · exfalso
          have hbne : b ≠ s := fun he => hsb (he ▸ List.mem_cons_self b t2)
          have hblt : b.created < s.created := hmax b (by simp) hbne
          have hab : a.created ≤ b.created := hat b (List.mem_cons_self b t2)
          rcases List.mem_cons.mp hmem with rfl | hm
          · omega
          · exact hsb hm
      exact ih s hts hmem2 (fun x hx hxs => hmax x (List.mem_cons_of_mem a hx) hxs)

theorem get_queue_position_rank (db : List QSession) (s : QSession)
    (hids : idsUnique db) (hdist : intakeCreatedDistinct db)
    (hq : inIntakeQueue db s) (hn : newestOfConv db s) :
    get_queue_position db s.conv = some (queueRankSpec db s) := by
  obtain ⟨hmem, hw, ho⟩ := hq
  have hconvmem : s ∈ waitingOfConv db s.conv := by
    simp [waitingOfConv, List.mem_filter, hmem, hw]
  have hlat : latestWaiting db s.conv = some s := by
    apply getLast_sorted_max _ s (pairwise_sortByCreated _) (mem_sortByCreated.mpr hconvmem)
    intro t htmem htne
    have ht2 := List.mem_filter.mp (mem_sortByCreated.mp htmem)
    simp only [Bool.and_eq_true, beq_iff_eq] at ht2
    exact hn t ht2.1 ht2.2.1 ht2.2.2 htne
  have hsmem : s ∈ waitingIntake db :=
    mem_sortByCreated.mpr (List.mem_filter.mpr ⟨hmem, by simp [ho, hw]⟩)
  have hfind : findPos (fun r => r.id == s.id) (waitingIntake db)
      = some ((waitingIntake db).countP (fun t => t.created < s.created)) := by
    apply findPos_rank _ _ (pairwise_sortByCreated _) hsmem
    · intro t htm hid2
      have ht2 := List.mem_filter.mp (mem_sortByCreated.mp htm)
      exact hids t ht2.1 s hmem hid2
    · intro t htm htne hcreq
      have ht2 := List.mem_filter.mp (mem_sortByCreated.mp htm)
      have ht3 := ht2.2
      simp only [Bool.and_eq_true, beq_iff_eq] at ht3
      exact htne (hdist t ht2.1 s hmem ht3.1 ho ht3.2 hw hcreq)
  have hcp : (waitingIntake db).countP (fun t => t.created < s.created)
      = (db.filter (fun t => t.owner == intakeQueueName
          && t.status == QStatus.waiting)).countP (fun t => t.created < s.created) :=
    countP_sortByCreated _ _
  unfold get_queue_position
  rw [hlat]
  simp only [hfind, hcp, queueRankSpec]
  exact congrArg some (by omega)

theorem countP_lt_of_mem : ∀ (l : List QSession) (p q : QSession → Bool),
    (∀ a ∈ l, p a = true → q a = true) → ∀ a0 ∈ l, p a0 = false → q a0 = true →
    l.countP p < l.countP q := by
  intro l
  induction l with
  | nil => intro p q _ a0 ha; cases ha
  | cons b t ih =>
    intro p q hpq a0 ha hp hq
    rcases List.mem_cons.mp ha with rfl | hat
    · rw [List.countP_cons, List.countP_cons, hp, hq]
      have hc0 : (if (false = true) then 1 else 0) = 0 := rfl
      have hc1 : (if (true = true) then 1 else 0) = 1 := rfl
      rw [hc0, hc1]
      have := List.countP_mono_left (l := t)
        (fun x hx => hpq x (List.mem_cons_of_mem a0 hx))
      omega
    · have ihh := ih p q (fun x hx => hpq x (List.mem_cons_of_mem b hx)) a0 hat hp hq
      rw [List.countP_cons, List.countP_cons]
      by_cases hpb : p b = true
      · rw [hpb, hpq b (List.mem_cons_self b t) hpb]
        omega
      · have h1 : (if p b = true then 1 else 0) ≤ (if q b = true then 1 else 0) := by
          simp [Bool.eq_false_iff.mpr hpb]
        omega

theorem queueRank_lt (db : List QSession) (s1 s2 : QSession)
    (h1 : inIntakeQueue db s1) (h12 : s1.created < s2.created) :
    queueRankSpec db s1 < queueRankSpec db s2 := by
  obtain ⟨hm, hw, ho⟩ := h1
  have hmf : s1 ∈ db.filter (fun t => t.owner == intakeQueueName
      && t.status == QStatus.waiting) :=
    List.mem_filter.mpr ⟨hm, by simp [ho, hw]⟩
  have hlt := countP_lt_of_mem _ (fun t => decide (t.created < s1.created))
    (fun t => decide (t.created < s2.created))
    (fun a _ ha => by simp only [decide_eq_true_eq] at ha ⊢; omega)
    s1 hmf (by simp) (by simp [h12])
  simp only [queueRankSpec]
  omega

/-- C8: queue position is the 1-indexed rank, by creation order, of the
newest Waiting session of the caller among all Waiting sessions system-wide owned
by the designated intake queue; consequently, for sessions S1, S2, S3 all
Waiting in that global queue (each the newest Waiting session of its
conversation) with strictly increasing creation times, their positions are
strictly increasing, given unique session ids and distinct creation times
within the queue. -/
theorem c8_queue_rank_fifo (db : List QSession) (S1 S2 S3 : QSession)
    (hids : idsUnique db) (hdist : intakeCreatedDistinct db)
    (h1 : inIntakeQueue db S1) (h2 : inIntakeQueue db S2) (h3 : inIntakeQueue db S3)
    (hn1 : newestOfConv db S1) (hn2 : newestOfConv db S2) (hn3 : newestOfConv db S3)
    (h12 : S1.created < S2.created) (h23 : S2.created < S3.created) :
    get_queue_position db S1.conv = some (queueRankSpec db S1)
  ∧ get_queue_position db S2.conv = some (queueRankSpec db S2)
  ∧ get_queue_position db S3.conv = some (queueRankSpec db S3)
  ∧ queueRankSpec db S1 < queueRankSpec db S2
  ∧ queueRankSpec db S2 < queueRankSpec db S3 :=
  ⟨get_queue_position_rank db S1 hids hdist h1 hn1,
   get_queue_position_rank db S2 hids hdist h2 hn2,
   get_queue_position_rank db S3 hids hdist h3 hn3,
   queueRank_lt db S1 S2 h1 h12,
   queueRank_lt db S2 S3 h2 h23⟩

theorem c8_witness :
    get_queue_position qdbW 10 = some 1
  ∧ get_queue_position qdbW 20 = some 2
  ∧ get_queue_position qdbW 30 = some 3 := by
  have h := c8_queue_rank_fifo qdbW
    ⟨1, 10, QStatus.waiting, 1, "New Telegram Messages"⟩
    ⟨2, 20, QStatus.waiting, 2, "New Telegram Messages"⟩
    ⟨3, 30, QStatus.waiting, 3, "New Telegram Messages"⟩
    (by unfold idsUnique; decide) (by unfold intakeCreatedDistinct; decide)
    (by unfold inIntakeQueue; decide) (by unfold inIntakeQueue; decide)
    (by unfold inIntakeQueue; decide)
    (by unfold newestOfConv; decide) (by unfold newestOfConv; decide)
    (by unfold newestOfConv; decide) (by decide) (by decide)
  exact ⟨h.1.trans (by decide), h.2.1.trans (by decide), h.2.2.1.trans (by decide)⟩
